import Mathlib

/-
Verification of the column-mapping and row-transformation engine of the
iShare data-mapping ETL utility.

The Lean definitions below are a shallow embedding of the Python source:
  - schedularlogic.py : format_date, process_target_table, schedule_processing
  - data_upload.py    : the table-name sanitizer of upload_data_with_mapping
  - datamapping.py    : get_vidal_mappings and the row loop of upload_vidal_data

Database access (connection, DESCRIBE, SELECT, INSERT) is modelled as an
oracle structure `Db` whose fields mirror the cursor calls the code makes;
Python `eval` of administrator expressions is likewise an oracle, except for
the name-resolution semantics of its globals argument, which is modelled
explicitly.  Python values flowing through a row are modelled by `Value`
(strings, ints, floats-as-rationals, None); Python float formatting and
non-finite float literals are not modelled, and no claim depends on them.
Character-level helpers are restricted to ASCII, where the Python string
methods used by the code (`lower`, `isalnum`, `strip`, `split`) coincide
with the Lean models below.
-/

instance {ε α : Type} [DecidableEq ε] [DecidableEq α] : DecidableEq (Except ε α)
  | .ok a, .ok b =>
    if h : a = b then .isTrue (by rw [h]) else .isFalse (fun hc => by cases hc; exact h rfl)
  | .ok _, .error _ => .isFalse (fun hc => by cases hc)
  | .error _, .ok _ => .isFalse (fun hc => by cases hc)
  | .error e, .error f =>
    if h : e = f then .isTrue (by rw [h]) else .isFalse (fun hc => by cases hc; exact h rfl)

/-- A single-quote character as a string, used to build the SQL and error
message texts that the Python code writes with quote characters. -/
def squote : String := String.mk [Char.ofNat 39]

/-- Lookup in an association list with string keys (Python dict read). -/
def alookup {α : Type} : List (String × α) → String → Option α
  | [], _ => none
  | (k2, v) :: rest, k => if k2 = k then some v else alookup rest k

/-- Key list of an association list (Python dict.keys()). -/
def akeys {α : Type} (l : List (String × α)) : List String := l.map Prod.fst

/-- Key membership (Python `k in dict`). -/
def hasKey {α : Type} (l : List (String × α)) (k : String) : Bool := (alookup l k).isSome

/-- Insertion into an association list with Python dict semantics: an
existing key keeps its position and gets the new value, a new key is
appended at the end. -/
def dinsert {α : Type} (k : String) (v : α) : List (String × α) → List (String × α)
  | [] => [(k, v)]
  | (k2, v2) :: rest => if k2 = k then (k, v) :: rest else (k2, v2) :: dinsert k v rest

/-- Drop leading and trailing whitespace (Python str.strip for ASCII input). -/
def trimChars (cs : List Char) : List Char :=
  ((cs.dropWhile Char.isWhitespace).reverse.dropWhile Char.isWhitespace).reverse

/-- Split on a single separator character (Python str.split(sep)). -/
def splitOnSep (sep : Char) : List Char → List (List Char)
  | [] => [[]]
  | c :: cs =>
    if c = sep then [] :: splitOnSep sep cs
    else
      match splitOnSep sep cs with
      | [] => [[c]]
      | g :: gs => (c :: g) :: gs

/-- Substring test on character lists. -/
def infixOfChars (pat : List Char) : List Char → Bool
  | [] => pat.isPrefixOf []
  | c :: cs => pat.isPrefixOf (c :: cs) || infixOfChars pat cs

/-- Python `pat in s` substring membership. -/
def hasSub (s pat : String) : Bool := infixOfChars pat.data s.data

/-- Python str.lower for ASCII input. -/
def pyLower (s : String) : String := String.mk (s.data.map Char.toLower)

/-- Python str.strip as a String function. -/
def pyTrim (s : String) : String := String.mk (trimChars s.data)

/-- Python str.join. -/
def joinWith (sep : String) : List String → String
  | [] => ""
  | [x] => x
  | x :: xs => x ++ sep ++ joinWith sep xs

/-- A Python value flowing through a row: None, str, int, or a float
modelled as an exact rational. -/
inductive Value where
  | vNone : Value
  | vStr : String → Value
  | vInt : Int → Value
  | vRat : ℚ → Value
deriving DecidableEq, Repr

/-- Python truthiness of a `Value` (`if not value`). -/
def pyFalsy : Value → Bool
  | .vNone => true
  | .vStr s => s == ""
  | .vInt n => n == 0
  | .vRat q => q == 0

/-- Python str() of a value.  The float case is a placeholder: Python float
formatting is not modelled and no claim depends on it. -/
def pyStr : Value → String
  | .vNone => "None"
  | .vStr s => s
  | .vInt n => toString n
  | .vRat q => toString q

/- ---------- date handling: schedularlogic.py lines 9 to 28 ---------- -/

def isLeapYear (y : Nat) : Bool := (y % 4 == 0 && y % 100 != 0) || y % 400 == 0

def daysInMonth (y m : Nat) : Nat :=
  if m = 2 then (if isLeapYear y then 29 else 28)
  else if m = 4 ∨ m = 6 ∨ m = 9 ∨ m = 11 then 30 else 31

def digitVal (c : Char) : Nat := c.toNat - 48

def natOfDigits (ds : List Char) : Nat := ds.foldl (fun a c => a * 10 + digitVal c) 0

/-- A nonempty all-digit field, as matched by the CPython strptime field
patterns, together with its numeric value. -/
def parseField (cs : List Char) : Option Nat :=
  if !cs.isEmpty && cs.all Char.isDigit then some (natOfDigits cs) else none

/-- datetime.strptime(s, d/m/Y pattern): day and month are one or two
digits within range, the year is exactly four digits, the whole string must
match, and the resulting calendar date must exist (ValueError otherwise,
including year zero, which is below datetime.MINYEAR). -/
def parse_dmy (s : String) : Option (Nat × Nat × Nat) :=
  match splitOnSep '/' s.data with
  | [df, mf, yf] =>
    match parseField df, parseField mf, parseField yf with
    | some d, some m, some y =>
      if df.length ≤ 2 ∧ 1 ≤ d ∧ d ≤ 31 ∧ mf.length ≤ 2 ∧ 1 ≤ m ∧ m ≤ 12 ∧
         yf.length = 4 ∧ 1 ≤ y ∧ d ≤ daysInMonth y m
      then some (y, m, d) else none
    | _, _, _ => none
  | _ => none

/-- datetime.strptime(s, Y-m-d pattern), same field rules as `parse_dmy`. -/
def parse_ymd (s : String) : Option (Nat × Nat × Nat) :=
  match splitOnSep '-' s.data with
  | [yf, mf, df] =>
    match parseField yf, parseField mf, parseField df with
    | some y, some m, some d =>
      if yf.length = 4 ∧ 1 ≤ y ∧ mf.length ≤ 2 ∧ 1 ≤ m ∧ m ≤ 12 ∧
         df.length ≤ 2 ∧ 1 ≤ d ∧ d ≤ 31 ∧ d ≤ daysInMonth y m
      then some (y, m, d) else none
    | _, _, _ => none
  | _ => none

def pad2 (n : Nat) : String := if n < 10 then "0" ++ toString n else toString n

def pad4 (n : Nat) : String :=
  if n < 10 then "000" ++ toString n
  else if n < 100 then "00" ++ toString n
  else if n < 1000 then "0" ++ toString n
  else toString n

/-- strftime with the Y-m-d pattern. -/
def isoDate (y m d : Nat) : String := pad4 y ++ "-" ++ pad2 m ++ "-" ++ pad2 d

/-- format_date of schedularlogic.py lines 9 to 28: falsy input returns
None; a d/m/Y string is reformatted to Y-m-d; a Y-m-d string is returned
unchanged; any other string logs an error and returns None.  A truthy
non-string argument makes strptime raise TypeError, which the function
does not catch (it only catches ValueError). -/
def format_date (value : Value) (_column_name : String) : Except String Value :=
  if pyFalsy value then .ok .vNone
  else
    match value with
    | .vStr s =>
      match parse_dmy s with
      | some (y, m, d) => .ok (.vStr (isoDate y m d))
      | none =>
        match parse_ymd s with
        | some _ => .ok (.vStr s)
        | none => .ok .vNone
    | _ => .error "strptime() argument 1 must be str"

/-- Whether format_date writes its invalid-date log line (schedularlogic.py
line 27): exactly when the value is a truthy string that neither pattern
parses. -/
def format_date_logged (value : Value) : Bool :=
  match value with
  | .vStr s => !pyFalsy (.vStr s) && (parse_dmy s).isNone && (parse_ymd s).isNone
  | _ => false

/-- Claim C3: date coercion maps "25/12/2024" to "2024-12-25", returns
"2024-12-25" unchanged, and any nonempty string matching neither pattern
(such as "2024-13-40") becomes None with a logged error, never passing
through unchanged. -/
theorem format_date_coercion_spec (col : String) :
    format_date (.vStr "25/12/2024") col = .ok (.vStr "2024-12-25") ∧
    format_date (.vStr "2024-12-25") col = .ok (.vStr "2024-12-25") ∧
    (format_date (.vStr "2024-13-40") col = .ok .vNone ∧
      format_date_logged (.vStr "2024-13-40") = true) ∧
    ∀ s : String, s ≠ "" → parse_dmy s = none → parse_ymd s = none →
      format_date (.vStr s) col = .ok .vNone ∧ format_date_logged (.vStr s) = true := by
  refine ⟨rfl, rfl, ⟨rfl, by decide⟩, ?_⟩
  intro s hne hdmy hymd
  have hfalsy : pyFalsy (.vStr s) = false := by
    simp [pyFalsy]
    exact hne
  constructor
  · simp [format_date, hfalsy, hdmy, hymd]
  · simp [format_date_logged, hfalsy, hdmy, hymd]

/-- Witness for C3 at the unparseable input "31/04/2024" (April has 30
days, so neither pattern accepts it). -/
theorem format_date_coercion_spec_witness :
    format_date (.vStr "31/04/2024") "dob" = .ok .vNone ∧
    format_date_logged (.vStr "31/04/2024") = true := by
  have h := (format_date_coercion_spec "dob").2.2.2 "31/04/2024" (by decide) (by decide) (by decide)
  exact h

/- ---------- numeric coercion: schedularlogic.py lines 106 to 114 ---------- -/

/-- A run of ASCII digits in which single underscores may appear between
digits (Python numeric literal grouping accepted by int() and float());
returns the digits with the underscores removed. -/
def intDigitRun : List Char → Option (List Char)
  | [] => some []
  | [c] => if c.isDigit then some [c] else none
  | c :: d :: rest =>
    if c.isDigit then
      if d = '_' then
        match rest with
        | [] => none
        | r :: _ => if r.isDigit then (intDigitRun rest).map (c :: ·) else none
      else (intDigitRun (d :: rest)).map (c :: ·)
    else none

/-- Optional leading sign of a numeric literal. -/
def signSplit : List Char → Int × List Char
  | [] => (1, [])
  | c :: rest => if c = '-' then (-1, rest) else if c = '+' then (1, rest) else (1, c :: rest)

/-- The message of the ValueError raised by int() on a bad literal. -/
def intErrMsg (s : String) : String :=
  "invalid literal for int() with base 10: " ++ squote ++ s ++ squote

/-- Python int(s) for a str argument: strip whitespace, optional sign,
then a nonempty digit run (ASCII digits modelled; Unicode digits are not). -/
def pyIntOfString (s : String) : Except String Int :=
  let t := trimChars s.data
  let (sign, body) := signSplit t
  match intDigitRun body with
  | some ds => if ds.isEmpty then .error (intErrMsg s) else .ok (sign * (natOfDigits ds : Int))
  | none => .error (intErrMsg s)

/-- Python int(value) on a row value: ints pass through, floats truncate
toward zero, strings parse, None raises TypeError. -/
def pyIntValue : Value → Except String Value
  | .vInt n => .ok (.vInt n)
  | .vRat q => .ok (.vInt (q.num.tdiv (q.den : Int)))
  | .vStr s => (pyIntOfString s).map .vInt
  | .vNone => .error "int() argument must be a string or a number, not NoneType"

/-- The message of the ValueError raised by float() on a bad literal. -/
def floatErrMsg (s : String) : String :=
  "could not convert string to float: " ++ squote ++ s ++ squote

/-- Split at the first character satisfying p, reporting whether one was
found. -/
def splitAtChar (p : Char → Bool) : List Char → List Char × Option (List Char)
  | [] => ([], none)
  | c :: cs =>
    if p c then ([], some cs)
    else
      match splitAtChar p cs with
      | (a, b) => (c :: a, b)

/-- Syntactic phase of Python float(s) for finite decimal literals: strip,
optional sign, integer part and/or fractional part, optional exponent.
Returns (sign, integer digits, fraction digits, exponent).  The non-finite
literals inf, infinity and nan are not modelled (no claim touches them). -/
def pyFloatParts (s : String) : Except String (Int × List Char × List Char × Int) :=
  let t := trimChars s.data
  let (sign, body) := signSplit t
  let (mant, expPart) := splitAtChar (fun c => c = 'e' ∨ c = 'E') body
  let (ipart, fracOpt) := splitAtChar (fun c => c = '.') mant
  let ipDigits := if ipart.isEmpty then some [] else intDigitRun ipart
  let fpDigits := match fracOpt with
    | none => some []
    | some f => if f.isEmpty then some [] else intDigitRun f
  match ipDigits, fpDigits with
  | some ip, some fp =>
    if ip.isEmpty && fp.isEmpty then .error (floatErrMsg s)
    else
      match expPart with
      | none => .ok (sign, ip, fp, 0)
      | some e =>
        let (esign, ebody) := signSplit e
        match intDigitRun ebody with
        | some eds =>
          if eds.isEmpty then .error (floatErrMsg s)
          else .ok (sign, ip, fp, esign * (natOfDigits eds : Int))
        | none => .error (floatErrMsg s)
  | _, _ => .error (floatErrMsg s)

/-- Numeric value of the parsed parts of a float literal, as an exact
rational. -/
def partsToRat : Int × List Char × List Char × Int → ℚ
  | (sign, ip, fp, ev) =>
    (sign : ℚ) * ((natOfDigits ip : ℚ) + (natOfDigits fp : ℚ) / (10 : ℚ) ^ fp.length) *
      (10 : ℚ) ^ ev

/-- Python float(s) for a str argument. -/
def pyFloatOfString (s : String) : Except String ℚ := (pyFloatParts s).map partsToRat

/-- Python float(value) on a row value. -/
def pyFloatValue : Value → Except String Value
  | .vInt n => .ok (.vRat (n : ℚ))
  | .vRat q => .ok (.vRat q)
  | .vStr s => (pyFloatOfString s).map .vRat
  | .vNone => .error "float() argument must be a string or a number, not NoneType"

/-- Type-directed coercion of schedularlogic.py lines 107 to 115: the
lower-cased declared column type selects date, int or decimal handling;
`value not in [None, nan-string, empty-string]` guards the numeric casts;
other types pass the value through. -/
def coerce_value (column_type source_column : String) (value : Value) : Except String Value :=
  let ct := pyLower column_type
  if hasSub ct "date" then format_date value source_column
  else if hasSub ct "int" then
    if value = .vNone ∨ value = .vStr "nan" ∨ value = .vStr "" then .ok .vNone
    else pyIntValue value
  else if hasSub ct "decimal" then
    if value = .vNone ∨ value = .vStr "nan" ∨ value = .vStr "" then .ok .vNone
    else pyFloatValue value
  else .ok value

/-- Claim C4: for integer-typed target columns, None, the nan string and
the empty string coerce to null, never to zero, and a numeric string such
as "42" parses to the integer 42; decimal-typed columns treat the same
three values as null and parse numeric strings to a decimal value. -/
theorem numeric_coercion_null_handling (source_column : String) (ct1 ct2 : String) :
    (hasSub (pyLower ct1) "date" = false → hasSub (pyLower ct1) "int" = true →
      coerce_value ct1 source_column .vNone = .ok .vNone ∧
      coerce_value ct1 source_column (.vStr "nan") = .ok .vNone ∧
      coerce_value ct1 source_column (.vStr "") = .ok .vNone ∧
      (∀ n : Int, coerce_value ct1 source_column .vNone ≠ .ok (.vInt n)) ∧
      coerce_value ct1 source_column (.vStr "42") = .ok (.vInt 42)) ∧
    (hasSub (pyLower ct2) "date" = false → hasSub (pyLower ct2) "int" = false →
      hasSub (pyLower ct2) "decimal" = true →
      coerce_value ct2 source_column .vNone = .ok .vNone ∧
      coerce_value ct2 source_column (.vStr "nan") = .ok .vNone ∧
      coerce_value ct2 source_column (.vStr "") = .ok .vNone ∧
      coerce_value ct2 source_column (.vStr "42") = .ok (.vRat 42)) := by
  constructor
  · intro hd hi
    refine ⟨?_, ?_, ?_, ?_, ?_⟩ <;>
      simp only [coerce_value, hd, hi, Bool.false_eq_true, if_false, if_true]
    · simp
    · simp
    · simp
    · intro n
      simp
    · have h42 : pyIntValue (.vStr "42") = .ok (.vInt 42) := by decide
      simp [h42]
  · intro hd hi hdec
    refine ⟨?_, ?_, ?_, ?_⟩ <;>
      simp only [coerce_value, hd, hi, hdec, Bool.false_eq_true, if_false, if_true]
    · simp
    · simp
    · simp
    · have hp : pyFloatParts "42" = .ok (1, ['4', '2'], [], 0) := by decide
      have hd : natOfDigits ['4', '2'] = 42 := by decide
      have hd0 : natOfDigits ([] : List Char) = 0 := rfl
      have hv : partsToRat (1, ['4', '2'], [], 0) = (42 : ℚ) := by
        simp [partsToRat, hd, hd0]
      have h42 : pyFloatValue (.vStr "42") = .ok (.vRat 42) := by
        show (pyFloatOfString "42").map Value.vRat = .ok (.vRat 42)
        unfold pyFloatOfString
        rw [hp]
        show Except.ok (Value.vRat (partsToRat (1, ['4', '2'], [], 0))) = .ok (.vRat 42)
        rw [hv]
      simp [h42]

/-- Witness for C4 with the live types int(11) and decimal(10,2). -/
theorem numeric_coercion_null_handling_witness :
    coerce_value "int(11)" "c" .vNone = .ok .vNone ∧
    coerce_value "int(11)" "c" (.vStr "nan") = .ok .vNone ∧
    coerce_value "int(11)" "c" (.vStr "") = .ok .vNone ∧
    coerce_value "int(11)" "c" (.vStr "42") = .ok (.vInt 42) ∧
    coerce_value "decimal(10,2)" "c" .vNone = .ok .vNone ∧
    coerce_value "decimal(10,2)" "c" (.vStr "nan") = .ok .vNone ∧
    coerce_value "decimal(10,2)" "c" (.vStr "") = .ok .vNone ∧
    coerce_value "decimal(10,2)" "c" (.vStr "42") = .ok (.vRat 42) := by
  have h1 := (numeric_coercion_null_handling "c" "int(11)" "decimal(10,2)").1 (by decide) (by decide)
  have h2 := (numeric_coercion_null_handling "c" "int(11)" "decimal(10,2)").2 (by decide) (by decide) (by decide)
  exact ⟨h1.1, h1.2.1, h1.2.2.1, h1.2.2.2.2, h2.1, h2.2.1, h2.2.2.1, h2.2.2.2⟩

/- ---------- row transformation and batch processing:
     schedularlogic.py lines 30 to 151 ---------- -/

/-- One row fetched from the source table: an ordered mapping from column
name to raw value. -/
abbrev Row := List (String × Value)

/-- row.get(source_column): None when the key is absent. -/
def rowGet (row : Row) (k : String) : Value := (alookup row k).getD .vNone

/-- One row of mapping_table as selected by process_target_table. -/
structure MappingRow where
  source_column : String
  target_column : String
  transformation_logic : Option String
  source_table : String
deriving DecidableEq, Repr

/-- The `source` binding of the transformation expression: str(value) if
the value is not None, else the empty string (schedularlogic.py line 99). -/
def sourceString : Value → String
  | .vNone => ""
  | v => pyStr v

/-- Lines 98 to 104: when transformation_logic is truthy, evaluate it (the
evaluator is an oracle) on the source string; an evaluation failure is
caught and the value becomes None. -/
def applyTransform (evalTL : String → String → Except String Value)
    (transformation_logic : Option String) (value : Value) : Value :=
  match transformation_logic with
  | some logic =>
    if logic ≠ "" then
      match evalTL logic (sourceString value) with
      | .ok v => v
      | .error _ => .vNone
    else value
  | none => value

/-- The per-mapping body of the row loop (lines 96 to 115): fetch the raw
value, apply the optional transformation, then coerce by the target
column's declared type when the target column exists in the live schema. -/
def transformStep (evalTL : String → String → Except String Value)
    (table_columns : List (String × String)) (row : Row) (m : MappingRow) :
    Except String Value :=
  let raw := rowGet row m.source_column
  let value := applyTransform evalTL m.transformation_logic raw
  match alookup table_columns m.target_column with
  | some column_type => coerce_value column_type m.source_column value
  | none => .ok value

/-- The transformed_data dict after processing the given mappings in order
(lines 90 to 116); the first coercion exception aborts the row. -/
def buildTransformed (evalTL : String → String → Except String Value)
    (table_columns : List (String × String)) (row : Row) :
    List MappingRow → List (String × Value) → Except String (List (String × Value))
  | [], acc => .ok acc
  | m :: ms, acc =>
    match transformStep evalTL table_columns row m with
    | .ok v => buildTransformed evalTL table_columns row ms (dinsert m.target_column v acc)
    | .error e => .error e

/-- Lines 119 to 122: retain only the keys present in the live target
schema. -/
def matchedColumns (table_columns : List (String × String))
    (transformed : List (String × Value)) : List (String × Value) :=
  transformed.filter (fun p => hasKey table_columns p.1)

/-- Lines 90 to 125: transform one source row; an empty matched-column set
raises the no-matching-columns row error. -/
def transformRow (evalTL : String → String → Except String Value)
    (table_columns : List (String × String)) (mappings : List MappingRow)
    (row : Row) : Except String (List (String × Value)) :=
  match buildTransformed evalTL table_columns row mappings [] with
  | .error e => .error e
  | .ok transformed =>
    let matched := matchedColumns table_columns transformed
    if matched = [] then .error "No matching columns between source and target table"
    else .ok matched

/-- Lines 88 to 134: transform and insert one row; the result is the error
message recorded in failed_rows, or none on a successful insert. -/
def processRow (evalTL : String → String → Except String Value)
    (insertRow : List (String × Value) → Except String Unit)
    (table_columns : List (String × String)) (mappings : List MappingRow)
    (row : Row) : Option String :=
  match transformRow evalTL table_columns mappings row with
  | .error e => some e
  | .ok matched =>
    match insertRow matched with
    | .ok _ => none
    | .error e => some e

/-- The batch loop (lines 85 to 134): every row is attempted; failures are
collected in order and successes counted. -/
def processLoop (f : Row → Option String) : List Row → Nat × List (Row × String)
  | [] => (0, [])
  | r :: rs =>
    match f r with
    | none =>
      match processLoop f rs with
      | (c, fs) => (c + 1, fs)
    | some e =>
      match processLoop f rs with
      | (c, fs) => (c, (r, e) :: fs)

/-- The store collaborator: each field mirrors one kind of cursor call made
by schedularlogic.py, plus the Python eval oracle. -/
structure Db where
  connected : Bool
  describe : String → Except String (List (String × String))
  mappingsFor : String → List MappingRow
  query : String → Except String (List Row)
  insertRow : String → List (String × Value) → Except String Unit
  evalTL : String → String → Except String Value

/-- Lines 73 to 77: the optional date filter predicates.  Note the literal
column_name token written by the code (its comment says to replace it). -/
def buildConditions (start_date end_date : Option String) : List String :=
  (match start_date with
   | some d => if d ≠ "" then ["DATE(column_name) >= " ++ squote ++ d ++ squote] else []
   | none => []) ++
  (match end_date with
   | some d => if d ≠ "" then ["DATE(column_name) <= " ++ squote ++ d ++ squote] else []
   | none => [])

/-- Lines 70 to 80: the projection query over the valid source columns,
with the optional WHERE clause. -/
def buildSourceQuery (source_columns : List String) (source_table : String)
    (start_date end_date : Option String) : String :=
  let base := "SELECT " ++ joinWith ", " source_columns ++ " FROM " ++ source_table
  match buildConditions start_date end_date with
  | [] => base
  | cs => base ++ " WHERE " ++ joinWith " AND " cs

/-- Result of process_target_table: the Python success dict carries the
message (which embeds the inserted count) and failed_rows; the inserted
count is also kept explicitly.  The error dict carries a message. -/
inductive ProcResult where
  | ok : Nat → String → List (Row × String) → ProcResult
  | err : String → ProcResult
deriving DecidableEq, Repr

/-- process_target_table of schedularlogic.py lines 30 to 151. -/
def process_target_table (db : Db) (target_table : String)
    (start_date end_date : Option String) : ProcResult :=
  if !db.connected then .err "Failed to connect to database"
  else
    match db.describe target_table with
    | .error e => .err e
    | .ok table_columns =>
      match db.mappingsFor target_table with
      | [] => .err ("No mappings found for target table " ++ squote ++ target_table ++ squote)
      | m0 :: ms =>
        match db.describe m0.source_table with
        | .error e => .err e
        | .ok source_desc =>
          let source_table_columns := akeys source_desc
          let valid_mappings := (m0 :: ms).filter
            (fun m => source_table_columns.contains m.source_column && m.target_column != "")
          let q := buildSourceQuery (valid_mappings.map (fun m => m.source_column))
            m0.source_table start_date end_date
          match db.query q with
          | .error e => .err e
          | .ok source_data =>
            match processLoop
                (processRow db.evalTL (db.insertRow target_table) table_columns valid_mappings)
                source_data with
            | (insert_count, failed_rows) =>
              .ok insert_count
                (toString insert_count ++ " rows inserted into " ++ target_table)
                failed_rows

/-- The batch loop visits every row: the inserted count is the number of
rows whose processing succeeds and the failure list collects, in order,
every failing row with its error. -/
theorem processLoop_eq (f : Row → Option String) (rows : List Row) :
    processLoop f rows =
      (rows.countP (fun r => (f r).isNone),
       rows.filterMap (fun r => (f r).map (fun e => (r, e)))) := by
  induction rows with
  | nil => rfl
  | cons r rs ih =>
    cases h : f r with
    | none => simp [processLoop, h, ih, List.countP_cons]
    | some e => simp [processLoop, h, ih, List.countP_cons]

/-- Claim C1: when setup succeeds (connection up, target readable, some
mappings, source readable), the call returns the success payload whose
count is the number of rows that processed and inserted successfully and
whose failure list pairs each failing row with its error, over every
fetched row — so one row's failure never aborts the remaining rows, and
the call as a whole fails only on setup errors. -/
theorem process_target_table_batch_isolation
    (db : Db) (target_table : String) (start_date end_date : Option String)
    (table_columns : List (String × String)) (m0 : MappingRow) (ms : List MappingRow)
    (source_desc : List (String × String)) (valid_mappings : List MappingRow)
    (source_data : List Row)
    (hconn : db.connected = true)
    (hdesc : db.describe target_table = .ok table_columns)
    (hmaps : db.mappingsFor target_table = m0 :: ms)
    (hsrc : db.describe m0.source_table = .ok source_desc)
    (hvalid : valid_mappings = (m0 :: ms).filter
      (fun m => (akeys source_desc).contains m.source_column && m.target_column != ""))
    (hquery : db.query (buildSourceQuery (valid_mappings.map (fun m => m.source_column))
      m0.source_table start_date end_date) = .ok source_data) :
    process_target_table db target_table start_date end_date =
      .ok
        (source_data.countP (fun r =>
          (processRow db.evalTL (db.insertRow target_table) table_columns valid_mappings r).isNone))
        (toString
            (source_data.countP (fun r =>
              (processRow db.evalTL (db.insertRow target_table) table_columns valid_mappings r).isNone))
          ++ " rows inserted into " ++ target_table)
        (source_data.filterMap (fun r =>
          (processRow db.evalTL (db.insertRow target_table) table_columns valid_mappings r).map
            (fun e => (r, e)))) := by
  subst hvalid
  simp only [process_target_table, hconn, hdesc, hmaps, hsrc, Bool.not_true, Bool.false_eq_true,
    if_false]
  rw [hquery]
  simp only [processLoop_eq]

/-- Store oracle for the C1 witness: three source rows, the second of
which fails integer coercion. -/
def c1Db : Db :=
  { connected := true
    describe := fun t =>
      if t = "tgt" then .ok [("a", "int(11)")]
      else if t = "src" then .ok [("a", "varchar(20)")]
      else .error "table not found"
    mappingsFor := fun t => if t = "tgt" then [⟨"a", "a", none, "src"⟩] else []
    query := fun _ => .ok [[("a", .vStr "1")], [("a", .vStr "oops")], [("a", .vStr "3")]]
    insertRow := fun _ _ => .ok ()
    evalTL := fun _ _ => .error "eval oracle unused" }

/-- Witness for C1: of three rows the middle one fails coercion; the call
still succeeds with count 2 and exactly that row in the failure list. -/
theorem process_target_table_batch_isolation_witness :
    process_target_table c1Db "tgt" none none =
      .ok 2 ("2 rows inserted into tgt")
        [([("a", .vStr "oops")],
          "invalid literal for int() with base 10: " ++ squote ++ "oops" ++ squote)] := by
  have h := process_target_table_batch_isolation c1Db "tgt" none none
    [("a", "int(11)")] ⟨"a", "a", none, "src"⟩ [] [("a", "varchar(20)")]
    [⟨"a", "a", none, "src"⟩]
    [[("a", .vStr "1")], [("a", .vStr "oops")], [("a", .vStr "3")]]
    rfl rfl rfl rfl (by decide) rfl
  exact h.trans (by decide)

/-- dinsert grows the dict by at most one entry. -/
theorem dinsert_length_le {α : Type} (k : String) (v : α) (l : List (String × α)) :
    (dinsert k v l).length ≤ l.length + 1 := by
  induction l with
  | nil => simp [dinsert]
  | cons q rest ih =>
    rcases q with ⟨k2, v2⟩
    by_cases h : k2 = k
    · simp [dinsert, h]
    · simp only [dinsert, if_neg h, List.length_cons]
      omega

/-- Every entry of dinsert either carries the inserted key or was already
present. -/
theorem mem_dinsert {α : Type} (p : String × α) (k : String) (v : α)
    (l : List (String × α)) : p ∈ dinsert k v l → p.1 = k ∨ p ∈ l := by
  induction l with
  | nil =>
    intro h
    simp [dinsert] at h
    left
    rw [h]
  | cons q rest ih =>
    rcases q with ⟨k2, v2⟩
    by_cases h : k2 = k
    · simp only [dinsert, if_pos h]
      intro hp
      rcases List.mem_cons.mp hp with hp1 | hp2
      · left; rw [hp1]
      · right; exact List.mem_cons_of_mem _ hp2
    · simp only [dinsert, if_neg h]
      intro hp
      rcases List.mem_cons.mp hp with hp1 | hp2
      · right; rw [hp1]; exact List.mem_cons_self _ _
      · rcases ih hp2 with h1 | h1
        · left; exact h1
        · right; exact List.mem_cons_of_mem _ h1

/-- Key-level version of mem_dinsert. -/
theorem akeys_mem_dinsert {α : Type} (x k : String) (v : α) (l : List (String × α)) :
    x ∈ akeys (dinsert k v l) → x = k ∨ x ∈ akeys l := by
  intro hx
  rcases List.mem_map.mp hx with ⟨p, hp, he⟩
  rcases mem_dinsert p k v l hp with h | h
  · left; rw [← he, h]
  · right; rw [← he]; exact List.mem_map_of_mem _ h

/-- A successful transformed_data dict has at most one entry per processed
mapping beyond the accumulator. -/
theorem buildTransformed_ok_length (evalTL : String → String → Except String Value)
    (tc : List (String × String)) (row : Row) (ms : List MappingRow)
    (acc td : List (String × Value)) :
    buildTransformed evalTL tc row ms acc = .ok td → td.length ≤ acc.length + ms.length := by
  induction ms generalizing acc with
  | nil =>
    intro h
    cases h
    simp
  | cons m ms ih =>
    intro h
    simp only [buildTransformed] at h
    cases hs : transformStep evalTL tc row m with
    | ok v =>
      rw [hs] at h
      have h1 := ih (dinsert m.target_column v acc) h
      have h2 := dinsert_length_le m.target_column v acc
      simp only [List.length_cons]
      omega
    | error e =>
      rw [hs] at h
      cases h

/-- Every key of a successful transformed_data dict comes from the
accumulator or is the target column of some processed mapping. -/
theorem buildTransformed_ok_keys (evalTL : String → String → Except String Value)
    (tc : List (String × String)) (row : Row) (ms : List MappingRow)
    (acc td : List (String × Value)) :
    buildTransformed evalTL tc row ms acc = .ok td →
    ∀ p ∈ td, p.1 ∈ akeys acc ∨ ∃ m ∈ ms, m.target_column = p.1 := by
  induction ms generalizing acc with
  | nil =>
    intro h p hp
    cases h
    left
    exact List.mem_map_of_mem _ hp
  | cons m ms ih =>
    intro h p hp
    simp only [buildTransformed] at h
    cases hs : transformStep evalTL tc row m with
    | error e =>
      rw [hs] at h
      cases h
    | ok v =>
      rw [hs] at h
      rcases ih (dinsert m.target_column v acc) h p hp with h1 | ⟨m2, hm2, he2⟩
      · rcases akeys_mem_dinsert p.1 m.target_column v acc h1 with h2 | h2
        · right; exact ⟨m, List.mem_cons_self _ _, h2.symm⟩
        · left; exact h2
      · right; exact ⟨m2, List.mem_cons_of_mem _ hm2, he2⟩

/-- A mapping whose target column is absent from the live schema never
makes its step raise: coercion is skipped entirely. -/
theorem transformStep_ok_of_unmatched (evalTL : String → String → Except String Value)
    (tc : List (String × String)) (row : Row) (m : MappingRow)
    (hm : hasKey tc m.target_column = false) :
    transformStep evalTL tc row m =
      .ok (applyTransform evalTL m.transformation_logic (rowGet row m.source_column)) := by
  have halo : alookup tc m.target_column = none := by
    unfold hasKey at hm
    exact Option.not_isSome_iff_eq_none.mp (by simp [hm])
  simp only [transformStep, halo]

/-- When no mapping targets an existing schema column, the dict still
builds successfully (no step raises). -/
theorem buildTransformed_ok_of_unmatched (evalTL : String → String → Except String Value)
    (tc : List (String × String)) (row : Row) (ms : List MappingRow)
    (hms : ∀ m ∈ ms, hasKey tc m.target_column = false) :
    ∀ acc, ∃ td, buildTransformed evalTL tc row ms acc = .ok td := by
  induction ms with
  | nil => exact fun acc => ⟨acc, rfl⟩
  | cons m ms ih =>
    intro acc
    have hstep := transformStep_ok_of_unmatched evalTL tc row m (hms m (List.mem_cons_self _ _))
    rcases ih (fun m2 hm2 => hms m2 (List.mem_cons_of_mem _ hm2))
      (dinsert m.target_column
        (applyTransform evalTL m.transformation_logic (rowGet row m.source_column)) acc) with ⟨td, htd⟩
    refine ⟨td, ?_⟩
    simp only [buildTransformed, hstep]
    exact htd

/-- Claim C2: a successfully transformed row is nonempty, no larger than
the mapping set, and every retained column exists in the live schema and is
the target of some mapping; a mapping whose target is absent never raises
(it is silently dropped); and when no mapping targets a live column the row
fails with the no-matching-columns error instead of being inserted. -/
theorem transform_row_schema_invariant (evalTL : String → String → Except String Value)
    (table_columns : List (String × String)) (mappings : List MappingRow) (row : Row) :
    (∀ matched, transformRow evalTL table_columns mappings row = .ok matched →
      matched ≠ [] ∧ matched.length ≤ mappings.length ∧
        ∀ p ∈ matched, hasKey table_columns p.1 = true ∧
          ∃ m ∈ mappings, m.target_column = p.1) ∧
    (∀ m : MappingRow, hasKey table_columns m.target_column = false →
      transformStep evalTL table_columns row m =
        .ok (applyTransform evalTL m.transformation_logic (rowGet row m.source_column))) ∧
    (mappings.filter (fun m => hasKey table_columns m.target_column) = [] →
      transformRow evalTL table_columns mappings row =
        .error "No matching columns between source and target table") := by
  refine ⟨?_, ?_, ?_⟩
  · intro matched hok
    unfold transformRow at hok
    cases hbt : buildTransformed evalTL table_columns row mappings [] with
    | error e =>
      rw [hbt] at hok
      cases hok
    | ok td =>
      rw [hbt] at hok
      have hok2 :
          (if matchedColumns table_columns td = [] then
              (Except.error "No matching columns between source and target table" :
                Except String (List (String × Value)))
            else .ok (matchedColumns table_columns td)) = .ok matched := hok
      by_cases hemp : matchedColumns table_columns td = []
      · rw [if_pos hemp] at hok2
        cases hok2
      · rw [if_neg hemp] at hok2
        cases hok2
        refine ⟨hemp, ?_, ?_⟩
        · have h1 : (matchedColumns table_columns td).length ≤ td.length :=
            List.length_filter_le _ _
          have h2 := buildTransformed_ok_length evalTL table_columns row mappings [] td hbt
          simp only [List.length_nil] at h2
          omega
        · intro p hp
          have hkey := List.of_mem_filter hp
          have hmem := List.mem_of_mem_filter hp
          refine ⟨hkey, ?_⟩
          rcases buildTransformed_ok_keys evalTL table_columns row mappings [] td hbt p hmem
            with h1 | h1
          · simp [akeys] at h1
          · exact h1
  · intro m hm
    exact transformStep_ok_of_unmatched evalTL table_columns row m hm
  · intro hfilter
    have hms : ∀ m ∈ mappings, hasKey table_columns m.target_column = false := by
      intro m hm
      have := List.filter_eq_nil_iff.mp hfilter m hm
      simp only [Bool.not_eq_true] at this
      exact this
    rcases buildTransformed_ok_of_unmatched evalTL table_columns row mappings hms []
      with ⟨td, htd⟩
    have hemp : matchedColumns table_columns td = [] := by
      apply List.filter_eq_nil_iff.mpr
      intro p hp
      rcases buildTransformed_ok_keys evalTL table_columns row mappings [] td htd p hp
        with h1 | ⟨m, hm, he⟩
      · simp [akeys] at h1
      · rw [← he]
        simp [hms m hm]
    unfold transformRow
    rw [htd]
    show (if matchedColumns table_columns td = [] then
        (Except.error "No matching columns between source and target table" :
          Except String (List (String × Value)))
      else .ok (matchedColumns table_columns td)) =
        .error "No matching columns between source and target table"
    rw [if_pos hemp]

/-- Evaluator oracle for the C2 and C5 witnesses. -/
def c2Eval : String → String → Except String Value := fun _ _ => .error "eval oracle unused"

/-- Witness for C2: with schema {b}, the mapping to b is retained, the
mapping to the nonexistent column zz is dropped without error, and a
mapping set targeting only zz makes the row fail with the
no-matching-columns error. -/
theorem transform_row_schema_invariant_witness :
    transformRow c2Eval [("b", "varchar(5)")]
        [⟨"a", "b", none, "s"⟩, ⟨"a", "zz", none, "s"⟩] [("a", .vStr "x")] =
      .ok [("b", .vStr "x")] ∧
    ([("b", Value.vStr "x")] : List (String × Value)) ≠ [] ∧
    ([("b", Value.vStr "x")] : List (String × Value)).length ≤
      ([⟨"a", "b", none, "s"⟩, ⟨"a", "zz", none, "s"⟩] : List MappingRow).length ∧
    transformRow c2Eval [("b", "varchar(5)")] [⟨"a", "zz", none, "s"⟩] [("a", .vStr "x")] =
      .error "No matching columns between source and target table" := by
  have h := transform_row_schema_invariant c2Eval [("b", "varchar(5)")]
    [⟨"a", "b", none, "s"⟩, ⟨"a", "zz", none, "s"⟩] [("a", .vStr "x")]
  have h1 := h.1 [("b", .vStr "x")] (by decide)
  have h3 := (transform_row_schema_invariant c2Eval [("b", "varchar(5)")]
    [⟨"a", "zz", none, "s"⟩] [("a", .vStr "x")]).2.2 (by decide)
  exact ⟨by decide, h1.1, h1.2.1, h3⟩

/-- Replacing the evaluator by one that turns every evaluation failure into
a successful None leaves applyTransform unchanged: a caught failure and a
successful None are indistinguishable downstream. -/
theorem applyTransform_nullified (evalTL evalTL2 : String → String → Except String Value)
    (h : ∀ logic s, evalTL2 logic s = match evalTL logic s with
      | .error _ => .ok .vNone
      | .ok w => .ok w)
    (tl : Option String) (v : Value) :
    applyTransform evalTL tl v = applyTransform evalTL2 tl v := by
  cases tl with
  | none => rfl
  | some logic =>
    simp only [applyTransform]
    by_cases hl : logic ≠ ""
    · rw [if_pos hl, if_pos hl, h logic (sourceString v)]
      cases he : evalTL logic (sourceString v) with
      | ok w => rfl
      | error e => rfl
    · rw [if_neg hl, if_neg hl]

/-- Step-level version of applyTransform_nullified. -/
theorem transformStep_nullified (evalTL evalTL2 : String → String → Except String Value)
    (h : ∀ logic s, evalTL2 logic s = match evalTL logic s with
      | .error _ => .ok .vNone
      | .ok w => .ok w)
    (tc : List (String × String)) (row : Row) (m : MappingRow) :
    transformStep evalTL tc row m = transformStep evalTL2 tc row m := by
  simp only [transformStep]
  rw [applyTransform_nullified evalTL evalTL2 h]

/-- Dict-level version of applyTransform_nullified. -/
theorem buildTransformed_nullified (evalTL evalTL2 : String → String → Except String Value)
    (h : ∀ logic s, evalTL2 logic s = match evalTL logic s with
      | .error _ => .ok .vNone
      | .ok w => .ok w)
    (tc : List (String × String)) (row : Row) (ms : List MappingRow) :
    ∀ acc, buildTransformed evalTL tc row ms acc = buildTransformed evalTL2 tc row ms acc := by
  induction ms with
  | nil => intro acc; rfl
  | cons m ms ih =>
    intro acc
    simp only [buildTransformed]
    rw [transformStep_nullified evalTL evalTL2 h]
    cases hs : transformStep evalTL2 tc row m with
    | ok v => exact ih _
    | error e => rfl

/-- Coercion of None never raises, whatever the declared column type. -/
theorem coerce_value_none (column_type source_column : String) :
    coerce_value column_type source_column .vNone = .ok .vNone := by
  simp only [coerce_value]
  cases h1 : hasSub (pyLower column_type) "date" <;>
    cases h2 : hasSub (pyLower column_type) "int" <;>
      cases h3 : hasSub (pyLower column_type) "decimal" <;>
        simp [h1, h2, h3, format_date, pyFalsy]

/-- Claim C5: an evaluation failure of a present transformation expression
is caught and yields None for that column; a failing evaluator is
indistinguishable from one successfully returning None, so an expression
failure by itself never changes the fate of the row; and None survives
every type coercion without raising. -/
theorem transformation_failure_isolated (evalTL evalTL2 : String → String → Except String Value)
    (table_columns : List (String × String)) (mappings : List MappingRow) (row : Row) :
    (∀ logic v e, logic ≠ "" → evalTL logic (sourceString v) = .error e →
      applyTransform evalTL (some logic) v = .vNone) ∧
    ((∀ logic s, evalTL2 logic s = match evalTL logic s with
        | .error _ => .ok .vNone
        | .ok w => .ok w) →
      transformRow evalTL table_columns mappings row =
        transformRow evalTL2 table_columns mappings row) ∧
    (∀ column_type source_column, coerce_value column_type source_column .vNone = .ok .vNone) := by
  refine ⟨?_, ?_, ?_⟩
  · intro logic v e hl he
    simp only [applyTransform]
    rw [if_pos hl, he]
  · intro h
    unfold transformRow
    rw [buildTransformed_nullified evalTL evalTL2 h table_columns row mappings []]
  · intro column_type source_column
    exact coerce_value_none column_type source_column

/-- Evaluator for the C5 witness that nullifies the failures of c2Eval. -/
def c5Eval2 : String → String → Except String Value := fun logic s =>
  match c2Eval logic s with
  | .error _ => .ok .vNone
  | .ok w => .ok w

/-- Witness for C5: a failing evaluation of len(source) yields None for
the column, the whole-row outcome matches the nullified evaluator, and
None passes int coercion. -/
theorem transformation_failure_isolated_witness :
    applyTransform c2Eval (some "len(source)") (.vStr "abc") = .vNone ∧
    transformRow c2Eval [("b", "varchar(5)")] [⟨"a", "b", some "len(source)", "s"⟩]
        [("a", .vStr "abc")] =
      transformRow c5Eval2 [("b", "varchar(5)")] [⟨"a", "b", some "len(source)", "s"⟩]
        [("a", .vStr "abc")] ∧
    coerce_value "int(11)" "a" .vNone = .ok .vNone := by
  have h := transformation_failure_isolated c2Eval c5Eval2 [("b", "varchar(5)")]
    [⟨"a", "b", some "len(source)", "s"⟩] [("a", .vStr "abc")]
  exact ⟨h.1 "len(source)" (.vStr "abc") "eval oracle unused" (by decide) rfl,
    h.2.1 (fun logic s => rfl), h.2.2 "int(11)" "a"⟩

/- ---------- date filter and scheduler: schedularlogic.py lines 73 to 80
     and 154 to 216 ---------- -/

/-- Claim C9 (refuted by the code, a code bug): whenever a start or end
date is supplied, the WHERE predicate the code emits references the
literal token column_name — the placeholder its own comment says to
replace — rather than a configurable date column, and only the absence of
both dates omits the predicate. -/
theorem date_filter_literal_placeholder :
    buildSourceQuery ["claim_date"] "src_tbl" (some "2024-01-01") (some "2024-03-31") =
      "SELECT claim_date FROM src_tbl WHERE DATE(column_name) >= " ++ squote ++ "2024-01-01" ++
        squote ++ " AND DATE(column_name) <= " ++ squote ++ "2024-03-31" ++ squote ∧
    hasSub (buildSourceQuery ["claim_date"] "src_tbl" (some "2024-01-01") none)
      "DATE(column_name)" = true ∧
    buildConditions none none = [] := by
  exact ⟨by decide, by decide, rfl⟩

/-- A Python object as far as the eval environment model needs: the source
string or a builtin function. -/
inductive PyObj where
  | strv : String → PyObj
  | builtinFn : String → PyObj
deriving DecidableEq, Repr

/-- A representative subset of the CPython builtins namespace (the full
namespace holds over one hundred names; any member witnesses exposure). -/
def pythonBuiltins : List (String × PyObj) :=
  [("len", .builtinFn "len"), ("str", .builtinFn "str"), ("int", .builtinFn "int"),
   ("abs", .builtinFn "abs"), ("open", .builtinFn "open"), ("eval", .builtinFn "eval"),
   ("__import__", .builtinFn "__import__")]

/-- The globals dict the code passes to eval at schedularlogic.py line
101: exactly one explicit binding. -/
def transformGlobals (source : String) : List (String × PyObj) := [("source", .strv source)]

/-- Name resolution inside eval(expr, globals), following the Python
reference for eval: when the supplied globals mapping has no __builtins__
key, the interpreter inserts a reference to the builtins module before
evaluating, so a name absent from globals still resolves in the builtins
namespace. -/
def evalNameLookup (globalsDict : List (String × PyObj)) (name : String) : Option PyObj :=
  match alookup globalsDict name with
  | some v => some v
  | none => if hasKey globalsDict "__builtins__" then none else alookup pythonBuiltins name

/-- Claim C6 (refuted by the code, a code bug): the environment does bind
source to the string form of the raw value (empty for null), but because
eval injects __builtins__ into a globals dict that lacks it, builtin names
such as len and even __import__ also resolve — the expression is not
limited to exactly one name. -/
theorem eval_env_exposes_builtins :
    evalNameLookup (transformGlobals "abc") "source" = some (.strv "abc") ∧
    sourceString .vNone = "" ∧
    evalNameLookup (transformGlobals "abc") "len" = some (.builtinFn "len") ∧
    ("len" : String) ≠ "source" ∧
    evalNameLookup (transformGlobals "abc") "__import__" = some (.builtinFn "__import__") := by
  exact ⟨rfl, rfl, by decide, by decide, by decide⟩

/-- One row of the scheduler_details table. -/
structure SchedRow where
  scheduler_name : String
  start_date_time : Option String
  end_date_time : Option String
  cron_expression : String
  status : String
  target_table : String
  process_logic : Option String
deriving DecidableEq, Repr

/-- Python `x if x else None` for a str-or-None value. -/
def optTruthy : Option String → Option String
  | some s => if s ≠ "" then some s else none
  | none => none

/-- The row inserted by schedule_processing (lines 175 to 190), with
status Scheduled. -/
def mkScheduledRow (scheduler_name : String) (start_date end_date : Option String)
    (cron_expression target_table : String) (process_logic : Option String) : SchedRow :=
  { scheduler_name := scheduler_name
    start_date_time := optTruthy start_date
    end_date_time := optTruthy end_date
    cron_expression := cron_expression
    status := "Scheduled"
    target_table := target_table
    process_logic := optTruthy process_logic }

/-- The UPDATE of lines 195 to 200: every row whose scheduler_name matches
becomes Completed with the current timestamp as end time. -/
def completeRun (scheduler_name now : String) (r : SchedRow) : SchedRow :=
  if r.scheduler_name = scheduler_name then
    { r with status := "Completed", end_date_time := some now }
  else r

/-- Result of schedule_processing: the success dict with its message and
embedded processing details, or the error dict. -/
inductive SchedResult where
  | ok : String → ProcResult → SchedResult
  | err : String → SchedResult
deriving DecidableEq, Repr

/-- schedule_processing of schedularlogic.py lines 154 to 216, returning
the final scheduler_details table alongside the response payload. -/
def schedule_processing (db : Db) (sched_table : List SchedRow) (now : String)
    (scheduler_name cron_expression target_table : String)
    (start_date end_date process_logic : Option String) : List SchedRow × SchedResult :=
  if !db.connected then (sched_table, .err "Failed to connect to database")
  else
    let afterInsert := sched_table ++
      [mkScheduledRow scheduler_name start_date end_date cron_expression target_table
        process_logic]
    let process_result := process_target_table db target_table start_date end_date
    let afterUpdate := afterInsert.map (completeRun scheduler_name now)
    (afterUpdate,
      .ok ("Scheduler " ++ squote ++ scheduler_name ++ squote ++ " executed successfully")
        process_result)

/-- Claim C10: whenever the connection is up (so the processing step is
reached), the recorded run ends Completed with an end timestamp — the
freshly inserted Scheduled row included — no row with this scheduler name
stays Scheduled, and the response embeds the processing result even when
that result is an error payload. -/
theorem schedule_processing_terminal_completed
    (db : Db) (sched_table : List SchedRow)
    (now scheduler_name cron_expression target_table : String)
    (start_date end_date process_logic : Option String)
    (hconn : db.connected = true) :
    (schedule_processing db sched_table now scheduler_name cron_expression target_table
        start_date end_date process_logic).1 =
      (sched_table ++ [mkScheduledRow scheduler_name start_date end_date cron_expression
        target_table process_logic]).map (completeRun scheduler_name now) ∧
    (∀ r ∈ (schedule_processing db sched_table now scheduler_name cron_expression target_table
        start_date end_date process_logic).1,
      r.scheduler_name = scheduler_name → r.status = "Completed" ∧ r.end_date_time = some now) ∧
    { mkScheduledRow scheduler_name start_date end_date cron_expression target_table
        process_logic with status := "Completed", end_date_time := some now } ∈
      (schedule_processing db sched_table now scheduler_name cron_expression target_table
        start_date end_date process_logic).1 ∧
    (schedule_processing db sched_table now scheduler_name cron_expression target_table
        start_date end_date process_logic).2 =
      .ok ("Scheduler " ++ squote ++ scheduler_name ++ squote ++ " executed successfully")
        (process_target_table db target_table start_date end_date) := by
  simp only [schedule_processing, hconn, Bool.not_true, Bool.false_eq_true, if_false]
  refine ⟨by trivial, ?_, ?_, by trivial⟩
  · intro r hr hname
    rcases List.mem_map.mp hr with ⟨r0, hr0, he⟩
    unfold completeRun at he
    by_cases h : r0.scheduler_name = scheduler_name
    · rw [if_pos h] at he
      cases he
      exact ⟨rfl, rfl⟩
    · rw [if_neg h] at he
      cases he
      exact absurd hname h
  · apply List.mem_map.mpr
    refine ⟨mkScheduledRow scheduler_name start_date end_date cron_expression target_table
      process_logic, ?_, ?_⟩
    · exact List.mem_append_right _ (List.mem_singleton.mpr rfl)
    · unfold completeRun
      have ht : (mkScheduledRow scheduler_name start_date end_date cron_expression target_table
          process_logic).scheduler_name = scheduler_name := rfl
      rw [if_pos ht]

/-- Store oracle for the C10 witness: connected, but the target table has
zero mappings, so processing returns an error payload. -/
def c10Db : Db :=
  { connected := true
    describe := fun _ => .ok []
    mappingsFor := fun _ => []
    query := fun _ => .error "query oracle unused"
    insertRow := fun _ _ => .ok ()
    evalTL := fun _ _ => .error "eval oracle unused" }

/-- Witness for C10: with zero mappings the run still ends Completed with
an end timestamp and the no-mappings error embedded in the details. -/
theorem schedule_processing_terminal_completed_witness :
    (schedule_processing c10Db [] "2026-01-01 00:00:00" "job1" "0 0 * * *" "tgt"
        none none none).1 =
      [{ scheduler_name := "job1", start_date_time := none,
         end_date_time := some "2026-01-01 00:00:00", cron_expression := "0 0 * * *",
         status := "Completed", target_table := "tgt", process_logic := none }] ∧
    (schedule_processing c10Db [] "2026-01-01 00:00:00" "job1" "0 0 * * *" "tgt"
        none none none).2 =
      .ok ("Scheduler " ++ squote ++ "job1" ++ squote ++ " executed successfully")
        (.err ("No mappings found for target table " ++ squote ++ "tgt" ++ squote)) := by
  have h := schedule_processing_terminal_completed c10Db [] "2026-01-01 00:00:00" "job1"
    "0 0 * * *" "tgt" none none none rfl
  exact ⟨h.1.trans (by decide), h.2.2.2.trans (by decide)⟩

/- ---------- table-name sanitizer: data_upload.py lines 16 to 19 ---------- -/

/-- The sanitizer of upload_data_with_mapping (data_upload.py lines 17 and
19): lower-case the label, then replace every character that is not
alphanumeric by an underscore.  Python isalnum is modelled on ASCII input,
where it coincides with Char.isAlphanum. -/
def sanitize_table_name (label : String) : String :=
  String.mk ((label.data.map Char.toLower).map (fun c => if c.isAlphanum then c else '_'))

/-- The sanitizer as the specification words it, stated from the spec for
comparison with sanitize_table_name: replace every character outside the
alphanumeric range by an underscore, prefix with col_ when the first
character is a digit, and lower-case the result. -/
def sanitize_spec (label : String) : String :=
  let replaced := label.data.map (fun c => if c.isAlphanum then c else '_')
  let prefixed :=
    match label.data with
    | c :: _ => if c.isDigit then ("col_".data ++ replaced) else replaced
    | [] => replaced
  String.mk (prefixed.map Char.toLower)

/-- Claim C7 counterexample: on the digit-led label 2024 data the code
yields 2024_data, with no col_ prefix, while the claimed sanitizer yields
col_2024_data. -/
theorem sanitize_no_col_prefix_counterexample :
    sanitize_table_name "2024 data" = "2024_data" ∧
    sanitize_spec "2024 data" = "col_2024_data" ∧
    sanitize_table_name "2024 data" ≠ sanitize_spec "2024 data" := by
  exact ⟨by decide, by decide, by decide⟩

/-- Lower-casing does not move a digit. -/
theorem char_toLower_of_isDigit (c : Char) (h : c.isDigit = true) : c.toLower = c := by
  simp only [Char.isDigit, Bool.and_eq_true, decide_eq_true_eq] at h
  have h57 : c.toNat ≤ 57 := h.2
  unfold Char.toLower
  show (if c.toNat ≥ 65 ∧ c.toNat ≤ 90 then Char.ofNat (c.toNat + 32) else c) = c
  rw [if_neg]
  intro hc
  omega

/-- Claim C7 amended: on ASCII labels (where the model is exact) the
sanitizer lower-cases and replaces every non-alphanumeric character by an
underscore, but never adds a col_ prefix: the output keeps the input's
length, every output character is alphanumeric or an underscore, and a
leading digit stays in place, so the output can begin with a digit. -/
theorem sanitize_table_name_amended (label : String)
    (_hascii : ∀ c ∈ label.data, c.toNat < 128) :
    (sanitize_table_name label).data.length = label.data.length ∧
    (∀ c ∈ (sanitize_table_name label).data, c.isAlphanum = true ∨ c = '_') ∧
    (∀ c, label.data.head? = some c → c.isDigit = true →
      (sanitize_table_name label).data.head? = some c) := by
  refine ⟨?_, ?_, ?_⟩
  · show (((label.data.map Char.toLower).map
      (fun c => if c.isAlphanum then c else '_')).length) = label.data.length
    simp
  · intro c hc
    have hc2 : c ∈ (label.data.map Char.toLower).map
        (fun c => if c.isAlphanum then c else '_') := hc
    rcases List.mem_map.mp hc2 with ⟨c0, hc0, he⟩
    by_cases h : c0.isAlphanum = true
    · left
      rw [← he, if_pos h]
      exact h
    · right
      rw [← he, if_neg h]
  · intro c hhead hdig
    cases hld : label.data with
    | nil =>
      rw [hld] at hhead
      cases hhead
    | cons c0 rest =>
      rw [hld] at hhead
      have hc0 : c0 = c := by
        simpa using hhead
      subst hc0
      show ((label.data.map Char.toLower).map
        (fun c => if c.isAlphanum then c else '_')).head? = some c0
      rw [hld]
      simp only [List.map_cons, List.head?_cons]
      rw [char_toLower_of_isDigit c0 hdig]
      have halnum : c0.isAlphanum = true := by
        simp [Char.isAlphanum, hdig]
      rw [if_pos halnum]

/-- Witness for the amended C7 at the ASCII label 2024 Data!, whose
sanitized form keeps length 10 and starts with the digit 2. -/
theorem sanitize_table_name_amended_witness :
    (sanitize_table_name "2024 Data!").data.length = ("2024 Data!" : String).data.length ∧
    (('_' : Char).isAlphanum = true ∨ ('_' : Char) = '_') ∧
    (sanitize_table_name "2024 Data!").data.head? = some '2' := by
  have h := sanitize_table_name_amended "2024 Data!" (by decide)
  exact ⟨h.1, h.2.1 '_' (by decide), h.2.2 '2' (by decide) (by decide)⟩

/- ---------- fan-out mappings: datamapping.py lines 125 to 237 ---------- -/

/-- One value of the mapping dict of get_vidal_mappings. -/
structure VidalMapping where
  target_columns : List String
  transformation_logic : Option String
deriving DecidableEq, Repr

/-- datamapping.py line 142: the comma-separated target column list, each
token stripped; a falsy target column field gives the empty list. -/
def splitTargets (target_col : String) : List String :=
  if target_col ≠ "" then (splitOnSep ',' target_col.data).map (fun g => String.mk (trimChars g))
  else []

/-- get_vidal_mappings (datamapping.py lines 125 to 147): fold the fetched
(source_column, target_column, transformation_logic) rows into a dict from
source column to fan-out targets. -/
def get_vidal_mappings (rows : List (String × String × Option String)) :
    List (String × VidalMapping) :=
  rows.foldl (fun dict r => dinsert r.1 ⟨splitTargets r.2.1, r.2.2⟩ dict) []

/-- The insert_data dict built by the row loop of upload_vidal_data
(datamapping.py lines 199 to 219): each usable source column's string
value is written under every one of its stripped target columns.  The
code's usable_columns is a subset of the dict's keys, so the none branch
never runs there. -/
def buildInsertData (mapping_dict : List (String × VidalMapping))
    (usable_columns : List String) (row : String → Value) : List (String × String) :=
  usable_columns.foldl
    (fun insert_data source_col =>
      match alookup mapping_dict source_col with
      | some info =>
        info.target_columns.foldl
          (fun acc target_col => dinsert (pyTrim target_col) (pyStr (row source_col)) acc)
          insert_data
      | none => insert_data)
    []

/-- Lookup after inserting a key finds the inserted value. -/
theorem alookup_dinsert_self {α : Type} (k : String) (v : α) (l : List (String × α)) :
    alookup (dinsert k v l) k = some v := by
  induction l with
  | nil => simp [dinsert, alookup]
  | cons q rest ih =>
    rcases q with ⟨k2, v2⟩
    by_cases h : k2 = k
    · simp [dinsert, h, alookup]
    · simp only [dinsert, if_neg h, alookup, ih]

/-- Lookup of a different key is unaffected by an insertion. -/
theorem alookup_dinsert_ne {α : Type} (k k2 : String) (v : α) (l : List (String × α))
    (h : k2 ≠ k) : alookup (dinsert k v l) k2 = alookup l k2 := by
  induction l with
  | nil =>
    simp only [dinsert, alookup]
    rw [if_neg (fun he => h he.symm)]
  | cons q rest ih =>
    rcases q with ⟨k3, v3⟩
    by_cases h3 : k3 = k
    · subst h3
      simp only [dinsert, if_pos rfl, alookup]
      rw [if_neg (fun he => h he.symm), if_neg (fun he => h he.symm)]
    · simp only [dinsert, if_neg h3, alookup]
      by_cases h4 : k3 = k2
      · rw [if_pos h4, if_pos h4]
      · rw [if_neg h4, if_neg h4]
        exact ih

/-- Folding the same value over a list of target keys makes every one of
those keys map to that value, and leaves other keys untouched. -/
theorem alookup_fanout_foldl (ts : List String) (v : String) (k : String) :
    ∀ acc : List (String × String),
      (k ∈ ts.map pyTrim →
        alookup (ts.foldl (fun a t => dinsert (pyTrim t) v a) acc) k = some v) ∧
      (k ∉ ts.map pyTrim →
        alookup (ts.foldl (fun a t => dinsert (pyTrim t) v a) acc) k = alookup acc k) := by
  induction ts with
  | nil => simp
  | cons t ts ih =>
    intro acc
    constructor
    · intro hk
      simp only [List.foldl_cons]
      rcases List.mem_cons.mp hk with h1 | h1
      · by_cases h2 : k ∈ ts.map pyTrim
        · exact (ih _).1 h2
        · rw [(ih _).2 h2, h1]
          exact alookup_dinsert_self _ _ _
      · exact (ih _).1 h1
    · intro hk
      have hk1 : k ≠ pyTrim t := fun he => hk (by simp [he])
      have hk2 : k ∉ ts.map pyTrim := fun he => hk (by simp [he])
      simp only [List.foldl_cons]
      rw [(ih _).2 hk2]
      exact alookup_dinsert_ne _ _ _ _ hk1

/-- Claim C8: for a fan-out mapping row whose target column field is a
comma-separated list, every listed (stripped) target column of the
produced insert row receives the same string form of the source value. -/
theorem fanout_targets_receive_value (source_col target_col : String)
    (transformation_logic : Option String) (row : String → Value) (t : String)
    (_hne : target_col ≠ "") (ht : t ∈ splitTargets target_col) :
    alookup
      (buildInsertData (get_vidal_mappings [(source_col, target_col, transformation_logic)])
        [source_col] row)
      (pyTrim t) = some (pyStr (row source_col)) := by
  have hl : alookup
      (dinsert source_col
        (⟨splitTargets target_col, transformation_logic⟩ : VidalMapping) []) source_col =
      some ⟨splitTargets target_col, transformation_logic⟩ :=
    alookup_dinsert_self _ _ _
  show alookup
      (match alookup (dinsert source_col
          (⟨splitTargets target_col, transformation_logic⟩ : VidalMapping) []) source_col with
        | some info =>
          info.target_columns.foldl
            (fun acc tc => dinsert (pyTrim tc) (pyStr (row source_col)) acc) []
        | none => []) (pyTrim t) = some (pyStr (row source_col))
  rw [hl]
  exact (alookup_fanout_foldl (splitTargets target_col) (pyStr (row source_col))
    (pyTrim t) []).1 (List.mem_map_of_mem _ ht)

/-- Witness for C8 at the spec's example: the header phone, mobile,
contact with cell value 555-1234 yields mobile and contact both equal to
555-1234 in the produced row. -/
theorem fanout_targets_receive_value_witness :
    alookup
      (buildInsertData (get_vidal_mappings [("phone", "phone, mobile, contact", none)])
        ["phone"] (fun _ => .vStr "555-1234")) "mobile" = some "555-1234" ∧
    alookup
      (buildInsertData (get_vidal_mappings [("phone", "phone, mobile, contact", none)])
        ["phone"] (fun _ => .vStr "555-1234")) "contact" = some "555-1234" := by
  have h1 := fanout_targets_receive_value "phone" "phone, mobile, contact" none
    (fun _ => .vStr "555-1234") "mobile" (by decide) (by decide)
  have h2 := fanout_targets_receive_value "phone" "phone, mobile, contact" none
    (fun _ => .vStr "555-1234") "contact" (by decide) (by decide)
  exact ⟨h1, h2⟩
